import Mathlib

/-!
Verification development for the erc20-indexer client (src/unnamed/part_001,
revision starting at the second `function App()`).  JavaScript strings are
modelled as `List Char`; the ASCII-only behaviour of `toLowerCase`, `trim`,
and the regular expressions used by the source is modelled character by
character.  The asynchronous `getTokenBalance` handler is modelled as the
list of atomic write segments it performs between its `await` points
(`querySegments`), together with the network calls it issues
(`queryCalls`); running all segments in order gives the uninterleaved
behaviour (`getTokenBalance`).
-/

deriving instance DecidableEq for Except

namespace Erc20Indexer

/-- Whitespace characters removed by the JavaScript `String.prototype.trim`
(ASCII portion of the WhiteSpace and LineTerminator productions). -/
def isJsWhitespace (c : Char) : Bool :=
  c = ' ' || c = '\t' || c = '\n' || c = '\r' || c = '\x0b' || c = '\x0c'

/-- Strip leading whitespace. -/
def trimLeft (l : List Char) : List Char := l.dropWhile isJsWhitespace

/-- Strip trailing whitespace. -/
def trimRight (l : List Char) : List Char :=
  (l.reverse.dropWhile isJsWhitespace).reverse

/-- Model of the JavaScript `trim()`: strips whitespace at both ends. -/
def trim (l : List Char) : List Char := trimRight (trimLeft l)

/-- ASCII model of the JavaScript `toLowerCase()`. -/
def jsToLower (c : Char) : Char :=
  match c with
  | 'A' => 'a' | 'B' => 'b' | 'C' => 'c' | 'D' => 'd' | 'E' => 'e' | 'F' => 'f'
  | 'G' => 'g' | 'H' => 'h' | 'I' => 'i' | 'J' => 'j' | 'K' => 'k' | 'L' => 'l'
  | 'M' => 'm' | 'N' => 'n' | 'O' => 'o' | 'P' => 'p' | 'Q' => 'q' | 'R' => 'r'
  | 'S' => 's' | 'T' => 't' | 'U' => 'u' | 'V' => 'v' | 'W' => 'w' | 'X' => 'x'
  | 'Y' => 'y' | 'Z' => 'z'
  | c => c

/-- `toLowerCase` on a whole string. -/
def toLowerL (l : List Char) : List Char := l.map jsToLower

/-- Character class of the regex `[a-fA-F0-9]` used by the hex pattern. -/
def isHexDigit (c : Char) : Bool :=
  ('a' ≤ c && c ≤ 'f') || ('A' ≤ c && c ≤ 'F') || ('0' ≤ c && c ≤ '9')

/-- Character class of the regex `[a-zA-Z0-9-]` used for the ENS label. -/
def isLabelChar (c : Char) : Bool :=
  ('a' ≤ c && c ≤ 'z') || ('A' ≤ c && c ≤ 'Z') || ('0' ≤ c && c ≤ '9') || c = '-'

/-- Model of `startsWith("0x")`. -/
def startsWith0x : List Char → Bool
  | c1 :: c2 :: _ => c1 == '0' && c2 == 'x'
  | _ => false

/-- The test of the source regex `^0x[a-fA-F0-9]{40}$`. -/
def matchesHexPattern : List Char → Bool
  | c1 :: c2 :: rest => c1 == '0' && c2 == 'x' && rest.length == 40 && rest.all isHexDigit
  | _ => false

/-- The all-zero address `0x` followed by forty `0` digits. -/
def zeroAddress : List Char := '0' :: 'x' :: List.replicate 40 '0'

/-- Result shape of `validateInput` / `validateEthereumAddress`: either a
typed accepted value (`type: "ens"` with its `value`, or `type: "address"`
with its `address`) or `isValid: false` with an error message. -/
inductive Classification where
  | ensKind (value : List Char)
  | addressKind (value : List Char)
  | invalid (error : List Char)
deriving DecidableEq, Repr

/-- Error message of the empty-input branch of `validateInput`. -/
def emptyMsg : List Char := "Please enter an address or connect your wallet".data

/-- Error message of the final branch of `validateInput`. -/
def notAddrMsg : List Char :=
  "Please enter a valid Ethereum address (0x...) or ENS name (xxx.eth)".data

/-- Error message of the `!address || typeof address !== "string"` guard of
`validateEthereumAddress` (part_001 line 996); with string-typed inputs the
guard fires exactly on the empty string, the one falsy string value. -/
def invalidFormatMsg : List Char := "Invalid address format".data

/-- Error message of check 1 of `validateEthereumAddress` (the source quotes
the 0x in quote marks, omitted here). -/
def startMsg : List Char := "Ethereum address must start with 0x".data

/-- Error message of check 2 of `validateEthereumAddress`. -/
def lenMsg : List Char := "Ethereum address must be 42 characters long".data

/-- Error message of check 3 of `validateEthereumAddress`. -/
def hexMsg : List Char := "Ethereum address contains invalid characters".data

/-- Error message of check 4 of `validateEthereumAddress`. -/
def zeroMsg : List Char := "Cannot use zero address".data

/-- Model of `validateEthereumAddress` (part_001 lines 993-1036): the
falsy-or-non-string guard (which, on strings, fires exactly on the empty
string), then trimming, then the four ordered checks, first failure
winning. -/
def validateEthereumAddress (address : List Char) : Classification :=
  if address.isEmpty then .invalid invalidFormatMsg
  else
    let cleanAddress := trim address
    if !startsWith0x cleanAddress then .invalid startMsg
    else if cleanAddress.length ≠ 42 then .invalid lenMsg
    else if !matchesHexPattern cleanAddress then .invalid hexMsg
    else if cleanAddress = zeroAddress then .invalid zeroMsg
    else .addressKind cleanAddress

/-- The fixed ENS suffix allow-list of the source (`ensTLDs`). -/
def ensTLDs : List (List Char) :=
  [".eth".data, ".xyz".data, ".kred".data, ".luxe".data, ".club".data, ".art".data]

/-- Model of `isENSName` (part_001 lines 953-991).  The source first tests
`ensTLDs.some(...)` and then recomputes the same match with
`ensTLDs.find(...)`; both are collapsed into a single `find?`, which is
`none` exactly when the `some` test fails. -/
def isENSName (name : List Char) : Bool :=
  if name.length < 7 || !(name.any (fun c => c == '.')) then false
  else
    match ensTLDs.find? (fun tld => tld.isSuffixOf (toLowerL name)) with
    | none => false
    | some tld =>
        let namePart := name.take (name.length - tld.length)
        decide (3 ≤ namePart.length) && (!namePart.isEmpty && namePart.all isLabelChar)

/-- Model of `validateInput` (part_001 lines 916-951): the guard
`!input || typeof input !== "string" || input.trim() === ""` collapses to
the trimmed string being empty, since inputs are always strings here. -/
def validateInput (input : List Char) : Classification :=
  if (trim input).isEmpty then .invalid emptyMsg
  else
    let cleanInput := trim input
    if isENSName cleanInput then .ensKind cleanInput
    else if startsWith0x cleanInput then validateEthereumAddress cleanInput
    else .invalid notAddrMsg

/-- Error message of `validateApiKey`. -/
def apiKeyErrMsg : List Char :=
  "Invalid or missing Alchemy API key. Please check your .env file.".data

/-- Model of `validateApiKey` (part_001 lines 1080-1092): `some msg` is the
invalid verdict, `none` the valid one. -/
def validateApiKey (apiKey : List Char) : Option (List Char) :=
  if apiKey.isEmpty || decide ("COPY-PASTE".data <:+: apiKey) || decide (apiKey.length < 10)
  then some apiKeyErrMsg else none

/-- One element of `data.tokenBalances`; a missing `contractAddress` field
is modelled as `none`. -/
structure TokenBalanceEntry where
  contractAddress : Option (List Char)
  tokenBalance : List Char
deriving DecidableEq, Repr

/-- Token metadata record as returned by `getTokenMetadata`. -/
structure TokenMetadata where
  symbol : List Char
  name : List Char
  decimals : Nat
  logo : Option (List Char)
deriving DecidableEq, Repr

/-- The placeholder record substituted for a failed metadata fetch. -/
def placeholderMetadata : TokenMetadata :=
  { symbol := "UNKNOWN".data, name := "Unknown Token".data, decimals := 18, logo := none }

/-- Shape of a thrown JavaScript error as far as `getErrorMessage` and the
error-type classification inspect it: `code`, `message`, and the optional
`response.status`. -/
structure JsError where
  code : List Char
  message : List Char
  status : Option Nat
deriving DecidableEq, Repr

/-- Model of `getErrorMessage` (part_001 lines 1094-1133). -/
def getErrorMessage (error : JsError) : List Char :=
  if error.code = "NETWORK_ERROR".data || decide ("network".data <:+: error.message) then
    "Network connection error. Please check your internet connection.".data
  else if error.status = some 429 || decide ("rate limit".data <:+: error.message) then
    "Too many requests. Please wait a moment and try again.".data
  else if error.status = some 401 then
    "Invalid API key. Please check your Alchemy API key.".data
  else if error.status = some 403 then
    "Access forbidden. Please check your API key permissions.".data
  else if (error.status.getD 0) ≥ 500 then
    "Server error. Please try again later.".data
  else if decide ("ENS".data <:+: error.message) then
    "Invalid ENS name. Please use a valid Ethereum address.".data
  else if error.code = "TIMEOUT".data || decide ("timeout".data <:+: error.message) then
    "Request timed out. Please try again.".data
  else if error.message.isEmpty then
    "An unexpected error occurred. Please try again.".data
  else error.message

/-- The `errorType` chosen by the catch block of `getTokenBalance`
(part_001 lines 1300-1315). -/
def classifyErrorType (error : JsError) : List Char :=
  if error.code = "NETWORK_ERROR".data || decide ("network".data <:+: error.message) then
    "network".data
  else if error.status = some 429 || decide ("rate limit".data <:+: error.message) then
    "rate-limit".data
  else if error.status = some 401 || error.status = some 403 then "api".data
  else "unknown".data

/-- Possible outcomes of `alchemy.core.getTokenBalances`: a response with a
token-balance array, a null response, a response whose `tokenBalances` is
missing or not an array, or a rejection. -/
inductive BalanceOutcome where
  | ok (tokenBalances : List TokenBalanceEntry)
  | nullData
  | malformed
  | thrown (e : JsError)
deriving DecidableEq, Repr

/-- A network request issued by one query: the wallet-provider ENS lookup,
the balance fetch, or one per-token metadata fetch. -/
inductive NetCall where
  | ensResolution (name : List Char)
  | balanceFetch (address : List Char)
  | metadataFetch (contract : List Char)
deriving DecidableEq, Repr

/-- External world as one query observes it: the configured API key, the
wallet provider presence, and the responses of the provider and of the
balance/metadata API.  `ensResolve` returns the message of the error thrown
by `resolveENS` or the resolved address. -/
structure Env where
  apiKey : List Char
  hasProvider : Bool
  ensResolve : List Char → Except (List Char) (List Char)
  fetchBalances : List Char → BalanceOutcome
  fetchMetadata : List Char → Except JsError TokenMetadata

/-- The React state variables of the component (part_001 lines 890-913). -/
structure AppState where
  userAddress : List Char
  results : List TokenBalanceEntry
  hasQueried : Bool
  tokenDataObjects : List TokenMetadata
  isWalletConnected : Bool
  connectedAddress : List Char
  isConnecting : Bool
  walletError : List Char
  isLoading : Bool
  loadingStep : List Char
  errorType : List Char
  isResolvingENS : Bool
  resolvedENS : List Char
  ensName : List Char
deriving DecidableEq, Repr

/-- State at component mount: every string empty, every flag false. -/
def initialState : AppState :=
  { userAddress := [], results := [], hasQueried := false, tokenDataObjects := []
    isWalletConnected := false, connectedAddress := [], isConnecting := false
    walletError := [], isLoading := false, loadingStep := [], errorType := []
    isResolvingENS := false, resolvedENS := [], ensName := [] }

/-- The reset block at the top of `getTokenBalance` (part_001 lines 1136-1143). -/
def resetForQuery (s : AppState) : AppState :=
  { s with walletError := [], errorType := [], hasQueried := false,
           resolvedENS := [], results := [], tokenDataObjects := [], loadingStep := [] }

/-- The `finally` block of the try in `getTokenBalance` (lines 1316-1319). -/
def finalize (s : AppState) : AppState :=
  { s with isLoading := false, loadingStep := [] }

/-- Value or placeholder, as `Promise.allSettled` plus the fulfilled or
rejected mapping of lines 1272-1288 produces for one settled fetch. -/
def settleMetadata (r : Except JsError TokenMetadata) : TokenMetadata :=
  match r with
  | .ok m => m
  | .error _ => placeholderMetadata

/-- Message thrown by `resolveENS` when no wallet provider is injected,
after the outer catch has prefixed it. -/
def noProviderMsg : List Char :=
  "Failed to resolve ENS name: MetaMask is required for ENS resolution".data

/-- Segments of `getTokenBalance` after the balance fetch has been awaited
(part_001 lines 1211-1292 plus the finally block). -/
def fetchTailSegments (env : Env) (finalAddress : List Char) : List (AppState → AppState) :=
  match env.fetchBalances finalAddress with
  | .nullData =>
      [fun s => finalize { s with
          walletError := "No response from server. Please try again.".data,
          errorType := "api".data }]
  | .malformed =>
      [fun s => finalize { s with
          walletError := "Invalid response format. Please try again.".data,
          errorType := "api".data }]
  | .thrown e =>
      [fun s => finalize { s with
          walletError := getErrorMessage e, errorType := classifyErrorType e }]
  | .ok entries =>
      if entries.isEmpty then
        [fun s => finalize { s with
            results := entries,
            loadingStep := "No tokens found".data, hasQueried := true }]
      else
        [fun s => { s with
            results := entries,
            loadingStep := "Processing token data...".data },
         fun s => finalize { s with
            tokenDataObjects :=
              (entries.filterMap (fun t => t.contractAddress)).map
                (fun c => settleMetadata (env.fetchMetadata c)),
            hasQueried := true }]

/-- The state segments the body of `getTokenBalance` (part_001 lines
1135-1320) writes between its suspension points, given the responses in
`env` and the `userAddress` read at submit time.  Segment boundaries are
the `await` of `resolveENS`, the `await` of `getTokenBalances`, and the
`await` of `Promise.allSettled`; `resolveENS` is treated as a single
suspension whose only shared-state effect is toggling `isResolvingENS`.
The source`s inner try around the `getTokenMetadata` call pushes the same
placeholder a rejected promise settles to, so both failure modes flow
through `settleMetadata`. -/
def querySegments (env : Env) (userAddress : List Char) : List (AppState → AppState) :=
  match validateInput userAddress with
  | .invalid e =>
      [fun s => { resetForQuery s with
                    walletError := e, errorType := "validation".data, isLoading := false }]
  | .ensKind v =>
      (fun s => { resetForQuery s with
                    isLoading := true, loadingStep := "Resolving ENS name...".data,
                    isResolvingENS := true }) ::
      if !env.hasProvider then
        [fun s => { s with isResolvingENS := false, walletError := noProviderMsg,
                           errorType := "ens".data, isLoading := false, loadingStep := [] }]
      else
        match env.ensResolve v with
        | .error msg =>
            [fun s => { s with isResolvingENS := false, walletError := msg,
                               errorType := "ens".data, isLoading := false, loadingStep := [] }]
        | .ok addr =>
            match validateApiKey env.apiKey with
            | some err =>
                -- the credential failure returns before the try, so neither
                -- isLoading nor loadingStep is reset here
                [fun s => { s with isResolvingENS := false, resolvedENS := addr,
                                   ensName := v, walletError := err, errorType := "api".data }]
            | none =>
                (fun s => { s with isResolvingENS := false, resolvedENS := addr, ensName := v,
                                   isLoading := true,
                                   loadingStep := "Fetching token balances...".data }) ::
                fetchTailSegments env addr
  | .addressKind a =>
      match validateApiKey env.apiKey with
      | some err =>
          [fun s => { resetForQuery s with
                        ensName := [], resolvedENS := [],
                        walletError := err, errorType := "api".data }]
      | none =>
          (fun s => { resetForQuery s with
                        ensName := [], resolvedENS := [], isLoading := true,
                        loadingStep := "Fetching token balances...".data }) ::
          fetchTailSegments env a

/-- Network calls of `getTokenBalance` from the balance fetch on: the fetch
itself and, on a usable response, one metadata call per entry that carries
a contract address (the loop of lines 1238-1267 issues them in order). -/
def fetchCalls (env : Env) (finalAddress : List Char) : List NetCall :=
  .balanceFetch finalAddress ::
  match env.fetchBalances finalAddress with
  | .ok entries =>
      (entries.filterMap (fun t => t.contractAddress)).map .metadataFetch
  | _ => []

/-- The network requests one run of `getTokenBalance` issues, in order. -/
def queryCalls (env : Env) (userAddress : List Char) : List NetCall :=
  match validateInput userAddress with
  | .invalid _ => []
  | .ensKind v =>
      if !env.hasProvider then []
      else
        match env.ensResolve v with
        | .error _ => [.ensResolution v]
        | .ok addr =>
            match validateApiKey env.apiKey with
            | some _ => [.ensResolution v]
            | none => .ensResolution v :: fetchCalls env addr
  | .addressKind a =>
      match validateApiKey env.apiKey with
      | some _ => []
      | none => fetchCalls env a

/-- Run a list of state segments in order. -/
def runSegs (segs : List (AppState → AppState)) (s : AppState) : AppState :=
  segs.foldl (fun st f => f st) s

/-- One uninterleaved run of the `getTokenBalance` handler: all its write
segments applied in order, paired with the network calls it issued. -/
def getTokenBalance (env : Env) (s : AppState) : AppState × List NetCall :=
  (runSegs (querySegments env s.userAddress) s, queryCalls env s.userAddress)

/-- Model of `disconnectWallet` (part_001 lines 1371-1395), the non-throwing
path: one synchronous sequence of resets. -/
def disconnectWallet (s : AppState) : AppState :=
  { s with isWalletConnected := false, connectedAddress := [], userAddress := [],
           results := [], hasQueried := false, tokenDataObjects := [],
           walletError := [], errorType := [], ensName := [], resolvedENS := [],
           isLoading := false, isResolvingENS := false, loadingStep := [] }

/-- Model of the `Input.onChange` handler (part_001 lines 1635-1679): store
the new value, reset the error and detected-name fields, then run the
real-time validation only when the value is nonempty and no wallet is
connected. -/
def inputOnChange (s : AppState) (value : List Char) : AppState :=
  let s1 := { s with userAddress := value, walletError := [], errorType := [], ensName := [] }
  if !value.isEmpty && !s.isWalletConnected then
    match validateInput value with
    | .invalid e => { s1 with walletError := e, errorType := "validation".data }
    | .ensKind v => { s1 with ensName := v }
    | .addressKind _ => s1
  else s1

/-- Modelled from the spec wording of section 4.2 (claim C3): the four
ordered address checks, first failure winning, applied to the string it is
given; compared below with the source function, which additionally trims. -/
def specAddressChecks (s : List Char) : Classification :=
  if !startsWith0x s then .invalid startMsg
  else if s.length ≠ 42 then .invalid lenMsg
  else if !matchesHexPattern s then .invalid hexMsg
  else if s = zeroAddress then .invalid zeroMsg
  else .addressKind s

/-! Concrete fixtures used by witnesses and counterexamples. -/

/-- A well-formed non-zero address (forty `a` digits). -/
def addrA : List Char := "0xaaaaaaaaaaaaaaaaaaaaaaaaaaaaaaaaaaaaaaaa".data

/-- A second well-formed non-zero address (forty `b` digits). -/
def addrB : List Char := "0xbbbbbbbbbbbbbbbbbbbbbbbbbbbbbbbbbbbbbbbb".data

/-- A token contract address (forty `c` digits). -/
def contractC : List Char := "0xcccccccccccccccccccccccccccccccccccccccc".data

/-- A second token contract address (forty `d` digits). -/
def contractD : List Char := "0xdddddddddddddddddddddddddddddddddddddddd".data

/-- A third token contract address (forty `e` digits). -/
def contractE : List Char := "0xeeeeeeeeeeeeeeeeeeeeeeeeeeeeeeeeeeeeeeee".data

/-- A well-formed balance entry for `contractC`. -/
def entryC : TokenBalanceEntry :=
  { contractAddress := some contractC, tokenBalance := "0x01".data }

/-- A well-formed balance entry for `contractD`. -/
def entryD : TokenBalanceEntry :=
  { contractAddress := some contractD, tokenBalance := "0x03".data }

/-- A well-formed balance entry for `contractE`. -/
def entryE : TokenBalanceEntry :=
  { contractAddress := some contractE, tokenBalance := "0x04".data }

/-- A malformed balance entry: its `contractAddress` field is missing. -/
def entryBad : TokenBalanceEntry :=
  { contractAddress := none, tokenBalance := "0x02".data }

/-- Concrete metadata returned for `contractC`. -/
def metaC : TokenMetadata :=
  { symbol := "CCC".data, name := "C token".data, decimals := 6, logo := none }

/-- Concrete metadata returned for `contractE`. -/
def metaE : TokenMetadata :=
  { symbol := "EEE".data, name := "E token".data, decimals := 8, logo := none }

/-- A concrete rejection reason for a metadata fetch. -/
def errD : JsError := { code := [], message := "boom".data, status := some 500 }

/-- Environment with a valid key whose balance fetch returns one malformed
entry followed by one well-formed entry. -/
def envC1 : Env :=
  { apiKey := "validapikey123".data, hasProvider := false,
    ensResolve := fun _ => .error [],
    fetchBalances := fun _ => .ok [entryBad, entryC],
    fetchMetadata := fun _ => .ok metaC }

/-- Environment of the slow stale query A: returns the `entryC` portfolio. -/
def envQueryA : Env :=
  { apiKey := "validapikey123".data, hasProvider := false,
    ensResolve := fun _ => .error [],
    fetchBalances := fun _ => .ok [entryC],
    fetchMetadata := fun _ => .ok metaC }

/-- Environment of the newer query B: returns the `entryD` portfolio. -/
def envQueryB : Env :=
  { apiKey := "validapikey123".data, hasProvider := false,
    ensResolve := fun _ => .error [],
    fetchBalances := fun _ => .ok [entryD],
    fetchMetadata := fun _ => .ok metaC }

/-- Environment with an invalid (too short) API key in which ENS resolution
succeeds, and a generic working network. -/
def envBadKey : Env :=
  { apiKey := "x".data, hasProvider := true,
    ensResolve := fun _ => .ok addrA,
    fetchBalances := fun _ => .ok [entryC],
    fetchMetadata := fun _ => .ok metaC }

/-- Environment for the metadata-batch witness: the fetch for `contractD`
rejects, the fetches for `contractC` and `contractE` succeed. -/
def envBatch : Env :=
  { apiKey := "validapikey123".data, hasProvider := false,
    ensResolve := fun _ => .error [],
    fetchBalances := fun _ => .ok [entryC, entryD, entryE],
    fetchMetadata := fun c =>
      if c = contractD then .error errD
      else if c = contractE then .ok metaE
      else .ok metaC }

/-- Metadata lookup used to phrase the witness of the batch claim. -/
def batchMeta (c : List Char) : TokenMetadata :=
  if c = contractE then metaE else metaC

/-- A state that has completed a query and shows `entryC` with `metaC`. -/
def staleResultsState : AppState :=
  { initialState with userAddress := addrA, hasQueried := true,
                      results := [entryC], tokenDataObjects := [metaC],
                      resolvedENS := addrA }

/-- Initial state whose input field holds `addrA`. -/
def queryStateA : AppState := { initialState with userAddress := addrA }

/-- Initial state whose input field holds the all-zero address. -/
def zeroState : AppState :=
  { initialState with
      userAddress := "0x0000000000000000000000000000000000000000".data }

/-- Initial state whose input field holds the ENS name `vitalik.eth`. -/
def ensState : AppState := { initialState with userAddress := "vitalik.eth".data }

/-! Helper lemmas about trimming. -/

theorem dropWhile_dropWhile_self (p : Char → Bool) (l : List Char) :
    (l.dropWhile p).dropWhile p = l.dropWhile p := by
  induction l with
  | nil => rfl
  | cons a t ih =>
      by_cases h : p a = true
      · simp [List.dropWhile_cons, h, ih]
      · simp [List.dropWhile_cons, h]

theorem dropWhile_eq_self_of_isPre (p : Char → Bool) {l₁ l₂ : List Char}
    (h : l₁ <+: l₂) (h₂ : l₂.dropWhile p = l₂) : l₁.dropWhile p = l₁ := by
  cases l₁ with
  | nil => rfl
  | cons a t =>
      obtain ⟨r, hr⟩ := h
      subst hr
      rw [List.cons_append, List.dropWhile_cons] at h₂
      by_cases hp : p a = true
      · exfalso
        rw [if_pos hp] at h₂
        have hle := (List.dropWhile_suffix (l := t ++ r) p).length_le
        rw [h₂] at hle
        simp at hle
      · simp [List.dropWhile_cons, hp]

theorem trimRight_isPre (l : List Char) : trimRight l <+: l := by
  obtain ⟨t, ht⟩ := List.dropWhile_suffix (l := l.reverse) isJsWhitespace
  refine ⟨t.reverse, ?_⟩
  have : (t ++ l.reverse.dropWhile isJsWhitespace).reverse = l := by
    rw [ht, List.reverse_reverse]
  simpa [trimRight, List.reverse_append] using this

theorem trimLeft_trim (l : List Char) : trimLeft (trim l) = trim l := by
  have hfix : (trimLeft l).dropWhile isJsWhitespace = trimLeft l :=
    dropWhile_dropWhile_self isJsWhitespace l
  exact dropWhile_eq_self_of_isPre isJsWhitespace (trimRight_isPre (trimLeft l)) hfix

theorem trimRight_trimRight (l : List Char) : trimRight (trimRight l) = trimRight l := by
  unfold trimRight
  rw [List.reverse_reverse, dropWhile_dropWhile_self]

theorem trim_trim (l : List Char) : trim (trim l) = trim l := by
  show trimRight (trimLeft (trim l)) = trim l
  rw [trimLeft_trim]
  show trimRight (trimRight (trimLeft l)) = trim l
  rw [trimRight_trimRight]
  rfl

theorem validateInput_trim (s : List Char) : validateInput (trim s) = validateInput s := by
  unfold validateInput
  rw [trim_trim]

/-! Helper lemmas about case folding and the ENS heuristic. -/

theorem jsToLower_beq_dot (c : Char) : (jsToLower c == '.') = (c == '.') := by
  unfold jsToLower
  split <;> rfl

theorem isLabelChar_jsToLower (c : Char) : isLabelChar (jsToLower c) = isLabelChar c := by
  unfold jsToLower
  split <;> rfl

theorem any_dot_toLowerL (l : List Char) :
    (toLowerL l).any (fun c => c == '.') = l.any (fun c => c == '.') := by
  unfold toLowerL
  rw [List.any_map]
  have hf : ((fun c => c == '.') ∘ jsToLower) = (fun c : Char => c == '.') := by
    funext c
    exact jsToLower_beq_dot c
  rw [hf]

theorem all_label_toLowerL (l : List Char) :
    (toLowerL l).all isLabelChar = l.all isLabelChar := by
  unfold toLowerL
  rw [List.all_map]
  have hf : (isLabelChar ∘ jsToLower) = isLabelChar := by
    funext c
    exact isLabelChar_jsToLower c
  rw [hf]

theorem length_toLowerL (l : List Char) : (toLowerL l).length = l.length := by
  simp [toLowerL]

theorem isEmpty_of_length_eq {x y : List Char} (h : x.length = y.length) :
    x.isEmpty = y.isEmpty := by
  cases x <;> cases y <;> simp_all

theorem ensTLDs_suffix_unique {t1 t2 l : List Char}
    (h1 : t1 ∈ ensTLDs) (h2 : t2 ∈ ensTLDs)
    (s1 : t1 <:+ l) (s2 : t2 <:+ l) : t1 = t2 := by
  have hor : t1 <:+ t2 ∨ t2 <:+ t1 := by
    rcases List.prefix_or_prefix_of_prefix
        (List.reverse_prefix.mpr s1) (List.reverse_prefix.mpr s2) with h | h
    · exact Or.inl (List.reverse_prefix.mp h)
    · exact Or.inr (List.reverse_prefix.mp h)
  have hdec : ∀ a ∈ ensTLDs, ∀ b ∈ ensTLDs, a.isSuffixOf b = true → a = b := by decide
  rcases hor with h | h
  · exact hdec t1 h1 t2 h2 (List.isSuffixOf_iff_suffix.mpr h)
  · exact (hdec t2 h2 t1 h1 (List.isSuffixOf_iff_suffix.mpr h)).symm

/-- Extensional characterisation of `isENSName`: accepted exactly when some
allow-list suffix matches the lowercased string and the label before it is
at least three valid characters. -/
theorem isENSName_iff (name : List Char) :
    isENSName name = true ↔
      7 ≤ name.length ∧ name.any (fun c => c == '.') = true ∧
      ∃ tld ∈ ensTLDs, tld.isSuffixOf (toLowerL name) = true ∧
        3 ≤ (name.take (name.length - tld.length)).length ∧
        (name.take (name.length - tld.length)).all isLabelChar = true := by
  unfold isENSName
  by_cases hup : (name.length < 7 || !(name.any (fun c => c == '.'))) = true
  · rw [if_pos hup]
    simp only [Bool.or_eq_true, Bool.not_eq_eq_eq_not, Bool.not_true, decide_eq_true_eq] at hup
    constructor
    · intro h; exact absurd h (by simp)
    · rintro ⟨h7, hdot, -⟩
      rcases hup with h | h
      · omega
      · rw [hdot] at h; simp at h
  · rw [if_neg hup]
    simp only [Bool.or_eq_true, Bool.not_eq_eq_eq_not, Bool.not_true, decide_eq_true_eq,
      not_or, Bool.not_eq_false] at hup
    obtain ⟨h7, hdot⟩ := hup
    cases hfind : ensTLDs.find? (fun tld => tld.isSuffixOf (toLowerL name)) with
    | none =>
        rw [List.find?_eq_none] at hfind
        constructor
        · intro h; exact absurd h (by simp)
        · rintro ⟨-, -, tld, hmem, hsuf, -⟩
          exact absurd hsuf (by simpa using hfind tld hmem)
    | some tld =>
        have hmem := List.mem_of_find?_eq_some hfind
        have hsuf := List.find?_some hfind
        constructor
        · intro h
          simp only [Bool.and_eq_true, decide_eq_true_eq] at h
          exact ⟨by omega, hdot, tld, hmem, hsuf, h.1, h.2.2⟩
        · rintro ⟨-, -, tld', hmem', hsuf', hlen', hall'⟩
          have : tld' = tld :=
            ensTLDs_suffix_unique hmem' hmem
              (List.isSuffixOf_iff_suffix.mp hsuf') (List.isSuffixOf_iff_suffix.mp hsuf)
          subst this
          simp only [Bool.and_eq_true, decide_eq_true_eq]
          refine ⟨hlen', ?_, hall'⟩
          have : (name.take (name.length - tld'.length)) ≠ [] := by
            intro hnil
            rw [hnil] at hlen'
            simp at hlen'
          simpa [List.isEmpty_iff] using this

/-- The heuristic only looks at the string up to letter case. -/
theorem isENSName_toLowerL_congr (s t : List Char) (h : toLowerL s = toLowerL t) :
    isENSName s = isENSName t := by
  have hlen : s.length = t.length := by
    rw [← length_toLowerL s, h, length_toLowerL]
  have hdot : s.any (fun c => c == '.') = t.any (fun c => c == '.') := by
    rw [← any_dot_toLowerL s, h, any_dot_toLowerL]
  unfold isENSName
  rw [hlen, hdot, h]
  by_cases hc : (t.length < 7 || !(t.any (fun c => c == '.'))) = true
  · rw [if_pos hc, if_pos hc]
  · rw [if_neg hc, if_neg hc]
    cases hfind : ensTLDs.find? (fun tld => tld.isSuffixOf (toLowerL t)) with
    | none => rfl
    | some tld =>
        have hktake : ∀ k : Nat, (s.take k).length = (t.take k).length := by
          intro k
          rw [List.length_take, List.length_take, hlen]
        have hkall : ∀ k : Nat, (s.take k).all isLabelChar = (t.take k).all isLabelChar := by
          intro k
          rw [← all_label_toLowerL (s.take k), ← all_label_toLowerL (t.take k)]
          show ((s.take k).map jsToLower).all isLabelChar
              = ((t.take k).map jsToLower).all isLabelChar
          rw [List.map_take, List.map_take]
          show ((toLowerL s).take k).all isLabelChar = ((toLowerL t).take k).all isLabelChar
          rw [h]
        simp only [hktake, hkall, isEmpty_of_length_eq (hktake _)]

/-- Entries whose address field is a `some` over a given list project back
onto that list. -/
theorem filterMap_of_map_some {entries : List TokenBalanceEntry}
    {contracts : List (List Char)}
    (h : entries.map (fun t => t.contractAddress) = contracts.map some) :
    entries.filterMap (fun t => t.contractAddress) = contracts := by
  induction entries generalizing contracts with
  | nil =>
      cases contracts with
      | nil => rfl
      | cons c cs => simp at h
  | cons e es ih =>
      cases contracts with
      | nil => simp at h
      | cons c cs =>
          simp only [List.map_cons, List.cons.injEq] at h
          obtain ⟨h1, h2⟩ := h
          simp [List.filterMap_cons, h1, ih h2]

/-- The full effect of one uninterleaved successful raw-address query:
the stored balances, the stored metadata, the completion flags, and the
network calls issued. -/
theorem getTokenBalance_success_state (env : Env) (s0 : AppState) (a : List Char)
    (entries : List TokenBalanceEntry)
    (hv : validateInput s0.userAddress = .addressKind a)
    (hk : validateApiKey env.apiKey = none)
    (hb : env.fetchBalances a = .ok entries)
    (hne : entries ≠ []) :
    (getTokenBalance env s0).1.results = entries ∧
    (getTokenBalance env s0).1.tokenDataObjects =
      (entries.filterMap (fun t => t.contractAddress)).map
        (fun c => settleMetadata (env.fetchMetadata c)) ∧
    (getTokenBalance env s0).1.hasQueried = true ∧
    (getTokenBalance env s0).1.isLoading = false ∧
    (getTokenBalance env s0).1.walletError = [] ∧
    (getTokenBalance env s0).1.errorType = [] ∧
    (getTokenBalance env s0).2 =
      .balanceFetch a ::
        (entries.filterMap (fun t => t.contractAddress)).map .metadataFetch := by
  have hie : entries.isEmpty = false := by
    cases entries with
    | nil => exact absurd rfl hne
    | cons _ _ => rfl
  simp [getTokenBalance, querySegments, queryCalls, fetchTailSegments, fetchCalls,
        runSegs, hv, hk, hb, hie, finalize, resetForQuery]

/-- A string passing the hex pattern starts with 0x and has length 42. -/
theorem matchesHexPattern_shape {l : List Char} (h : matchesHexPattern l = true) :
    startsWith0x l = true ∧ l.length = 42 := by
  match l with
  | [] => simp [matchesHexPattern] at h
  | [c] => simp [matchesHexPattern] at h
  | c1 :: c2 :: rest =>
      simp only [matchesHexPattern, Bool.and_eq_true, beq_iff_eq] at h
      obtain ⟨⟨⟨h1, h2⟩, h3⟩, -⟩ := h
      subst h1
      subst h2
      refine ⟨rfl, ?_⟩
      simp [h3]

/-! Theorems for the frozen claims. -/

/-- Claim C3, counterexample: `validateEthereumAddress` trims its input
first, so the string made of a space followed by a well-formed address is
accepted even though it matches neither the leading-0x check nor the hex
pattern; the claim as stated says every string failing the pattern is
rejected. -/
theorem spec_c3_counterexample :
    validateEthereumAddress (' ' :: addrA) = .addressKind addrA ∧
    matchesHexPattern (' ' :: addrA) = false ∧
    startsWith0x (' ' :: addrA) = false := by decide

/-- Claim C3, amended: the empty string is rejected by the falsy guard
with its generic invalid-format reason; on every nonempty string the four
checks run in the stated order with the first failure winning, but on the
trimmed input; a string is accepted exactly when its trimmed form matches
the hex pattern and is not the all-zero address, and the accepted value is
the trimmed form. -/
theorem spec_c3_amended : ∀ s : List Char,
    (s.isEmpty = true → validateEthereumAddress s = .invalid invalidFormatMsg) ∧
    (s.isEmpty = false → validateEthereumAddress s = specAddressChecks (trim s)) ∧
    (∀ v, validateEthereumAddress s = .addressKind v ↔
      (matchesHexPattern (trim s) = true ∧ trim s ≠ zeroAddress ∧ v = trim s)) := by
  intro s
  refine ⟨fun he => by simp [validateEthereumAddress, he],
          fun he => by simp only [validateEthereumAddress, he, Bool.false_eq_true,
                                  if_false, specAddressChecks],
          fun v => ?_⟩
  constructor
  · intro h
    by_cases he : s.isEmpty = true
    · exfalso
      rw [validateEthereumAddress, if_pos he] at h
      exact absurd h (by simp)
    · replace he : s.isEmpty = false := by
        cases hb : s.isEmpty
        · rfl
        · exact absurd hb he
      rw [validateEthereumAddress, he] at h
      simp only [Bool.false_eq_true, if_false] at h
      by_cases hm : matchesHexPattern (trim s) = true
      · obtain ⟨hsw, hlen⟩ := matchesHexPattern_shape hm
        by_cases hz : trim s = zeroAddress
        · exfalso
          have e3 : matchesHexPattern zeroAddress = true := by decide
          obtain ⟨e1, e2⟩ := matchesHexPattern_shape e3
          rw [hz] at h
          simp [e1, e2, e3] at h
        · simp [hsw, hlen, hm, hz] at h
          exact ⟨hm, hz, h.symm⟩
      · exfalso
        by_cases hsw : startsWith0x (trim s) = true
        · by_cases hlen : (trim s).length = 42
          · simp [hsw, hlen, hm] at h
          · simp [hsw, hlen] at h
        · simp [hsw] at h
  · rintro ⟨hm, hz, rfl⟩
    have he : s.isEmpty = false := by
      cases s with
      | nil => exact absurd hm (by decide)
      | cons _ _ => rfl
    obtain ⟨hsw, hlen⟩ := matchesHexPattern_shape hm
    rw [validateEthereumAddress, he]
    simp [hsw, hlen, hm, hz]

/-- Witness for C3: the empty string takes the guard branch, and a
concrete nonempty string follows the ordered checks on its trimmed form. -/
theorem spec_c3_witness :
    validateEthereumAddress ([] : List Char) = .invalid invalidFormatMsg ∧
    validateEthereumAddress ("0y12".data) = specAddressChecks (trim ("0y12".data)) :=
  ⟨(spec_c3_amended []).1 (by decide),
   (spec_c3_amended ("0y12".data)).2.1 (by decide)⟩

/-- Claim C4: `validateInput` is a total function returning exactly one
variant (the embedding is a total Lean function, so no exception path
exists); it is invariant under trimming its input, and empty or
whitespace-only input yields the Invalid verdict with the empty-input
reason rather than an error. -/
theorem spec_c4_total : ∀ s : List Char,
    ((∃ e, validateInput s = .invalid e) ∨ (∃ v, validateInput s = .ensKind v) ∨
      (∃ a, validateInput s = .addressKind a)) ∧
    validateInput (trim s) = validateInput s ∧
    ((trim s).isEmpty = true → validateInput s = .invalid emptyMsg) := by
  intro s
  refine ⟨?_, validateInput_trim s, ?_⟩
  · cases h : validateInput s with
    | invalid e => exact Or.inl ⟨e, rfl⟩
    | ensKind v => exact Or.inr (Or.inl ⟨v, rfl⟩)
    | addressKind a => exact Or.inr (Or.inr ⟨a, rfl⟩)
  · intro he
    unfold validateInput
    simp [he]

/-- Witness for C4 at a whitespace-only input. -/
theorem spec_c4_witness : validateInput ("   ".data) = .invalid emptyMsg :=
  (spec_c4_total ("   ".data)).2.2 (by decide)

/-- Claim C5, counterexample: `isENSName` accepts the string abc.ETH, yet
no member of the allow-list is literally a suffix of it, so the claimed
iff with a case-sensitive suffix condition fails. -/
theorem spec_c5_counterexample :
    isENSName ("abc.ETH".data) = true ∧
    ensTLDs.all (fun t => !(t.isSuffixOf ("abc.ETH".data))) = true := by decide

/-- Claim C5, amended: the suffix of the allow-list is matched against the
lowercased string; with that change the iff holds, and so do the three
quoted examples. -/
theorem spec_c5_amended :
    (∀ name : List Char, isENSName name = true ↔
      7 ≤ name.length ∧ name.any (fun c => c == '.') = true ∧
      ∃ tld ∈ ensTLDs, tld.isSuffixOf (toLowerL name) = true ∧
        3 ≤ (name.take (name.length - tld.length)).length ∧
        (name.take (name.length - tld.length)).all isLabelChar = true) ∧
    isENSName ("vitalik.eth".data) = true ∧
    isENSName ("ab.eth".data) = false ∧
    isENSName ("0xAbC...".data) = false :=
  ⟨fun name => isENSName_iff name, by decide, by decide, by decide⟩

/-- Claim C10: the heuristic is insensitive to letter case — two strings
with the same lowercasing are classified identically, which covers both an
allow-list suffix written in any case and uppercase letters in the label. -/
theorem spec_c10_case_insensitive (s t : List Char) (h : toLowerL s = toLowerL t) :
    isENSName s = isENSName t :=
  isENSName_toLowerL_congr s t h

/-- Witness for C10: abc.ETH is accepted exactly like abc.eth, and
uppercase label letters are also accepted. -/
theorem spec_c10_witness :
    isENSName ("abc.ETH".data) = isENSName ("abc.eth".data) ∧
    isENSName ("abc.eth".data) = true ∧
    isENSName ("AbC.eth".data) = true :=
  ⟨spec_c10_case_insensitive ("abc.ETH".data) ("abc.eth".data) (by decide),
   by decide, by decide⟩

/-- Claim C1, counterexample: when the fetched balance list holds a
malformed entry (no contract address) followed by a well-formed one, the
stored balance list keeps both entries but the stored metadata list has a
single entry, so the two lists do not have the same length. -/
theorem spec_c1_counterexample :
    (getTokenBalance envC1 queryStateA).1.results.length = 2 ∧
    (getTokenBalance envC1 queryStateA).1.tokenDataObjects.length = 1 := by decide

/-- Claim C1, amended: after a completed query the stored metadata list has
one entry per balance entry that carries a contract address, positionally
aligned with that filtered sublist; the two stored lists have equal length
exactly in the case that every balance entry carries a contract address. -/
theorem spec_c1_amended (env : Env) (s0 : AppState) (a : List Char)
    (entries : List TokenBalanceEntry)
    (hv : validateInput s0.userAddress = .addressKind a)
    (hk : validateApiKey env.apiKey = none)
    (hb : env.fetchBalances a = .ok entries)
    (hne : entries ≠ []) :
    (getTokenBalance env s0).1.results = entries ∧
    (getTokenBalance env s0).1.tokenDataObjects.length =
      (entries.filterMap (fun t => t.contractAddress)).length ∧
    (∀ contracts : List (List Char),
      entries.map (fun t => t.contractAddress) = contracts.map some →
      (getTokenBalance env s0).1.tokenDataObjects =
        contracts.map (fun c => settleMetadata (env.fetchMetadata c)) ∧
      (getTokenBalance env s0).1.tokenDataObjects.length = entries.length) := by
  obtain ⟨hres, hmeta, -, -, -, -, -⟩ :=
    getTokenBalance_success_state env s0 a entries hv hk hb hne
  refine ⟨hres, by rw [hmeta, List.length_map], fun contracts hmap => ?_⟩
  have hfm := filterMap_of_map_some hmap
  have hlen : entries.length = contracts.length := by
    have := congrArg List.length hmap
    simpa using this
  constructor
  · rw [hmeta, hfm]
  · rw [hmeta, hfm, List.length_map, hlen]

/-- Witness for C1 at a batch of three well-formed entries. -/
theorem spec_c1_witness :
    (getTokenBalance envBatch queryStateA).1.results = [entryC, entryD, entryE] ∧
    (getTokenBalance envBatch queryStateA).1.tokenDataObjects.length =
      ([entryC, entryD, entryE].filterMap (fun t => t.contractAddress)).length ∧
    (getTokenBalance envBatch queryStateA).1.tokenDataObjects =
      [contractC, contractD, contractE].map
        (fun c => settleMetadata (envBatch.fetchMetadata c)) ∧
    (getTokenBalance envBatch queryStateA).1.tokenDataObjects.length = 3 := by
  obtain ⟨h1, h2, h3⟩ :=
    spec_c1_amended envBatch queryStateA addrA [entryC, entryD, entryE]
      (by decide) (by decide) (by decide) (by decide)
  obtain ⟨h4, h5⟩ := h3 [contractC, contractD, contractE] (by decide)
  exact ⟨h1, h2, h4, h5⟩

/-- Claim C2, counterexample: query A (against `envQueryA`) starts, query B
(against `envQueryB`) starts and completes while A is suspended on its
balance fetch, then A settles.  The final state holds A's portfolio
`[entryC]`, not B's `[entryD]`: the stale query is not invalidated. -/
theorem spec_c2_counterexample :
    (runSegs ((querySegments envQueryA addrA).take 1 ++ querySegments envQueryB addrB
        ++ (querySegments envQueryA addrA).drop 1) initialState).results = [entryC] ∧
    (runSegs ((querySegments envQueryA addrA).take 1 ++ querySegments envQueryB addrB
        ++ (querySegments envQueryA addrA).drop 1) initialState).hasQueried = true ∧
    envQueryB.fetchBalances addrB = .ok [entryD] ∧
    (runSegs ((querySegments envQueryA addrA).take 1 ++ querySegments envQueryB addrB
        ++ (querySegments envQueryA addrA).drop 1) initialState).results ≠ [entryD] := by
  decide

/-- Claim C2, amended: no invalidation of stale queries exists; the final
state corresponds to whichever query's completion segments run last.  In
the schedule where A submits, B submits and fully completes, and then the
stale A settles, the displayed results and metadata are A's. -/
theorem spec_c2_amended (envA envB : Env) (uA uB aA aB : List Char)
    (eA eB : List TokenBalanceEntry) (s0 : AppState)
    (hvA : validateInput uA = .addressKind aA)
    (hkA : validateApiKey envA.apiKey = none)
    (hbA : envA.fetchBalances aA = .ok eA) (hneA : eA ≠ [])
    (hvB : validateInput uB = .addressKind aB)
    (hkB : validateApiKey envB.apiKey = none)
    (hbB : envB.fetchBalances aB = .ok eB) (hneB : eB ≠ []) :
    (runSegs ((querySegments envA uA).take 1 ++ querySegments envB uB
        ++ (querySegments envA uA).drop 1) s0).results = eA ∧
    (runSegs ((querySegments envA uA).take 1 ++ querySegments envB uB
        ++ (querySegments envA uA).drop 1) s0).tokenDataObjects =
      (eA.filterMap (fun t => t.contractAddress)).map
        (fun c => settleMetadata (envA.fetchMetadata c)) ∧
    (runSegs ((querySegments envA uA).take 1 ++ querySegments envB uB
        ++ (querySegments envA uA).drop 1) s0).hasQueried = true := by
  have hieA : eA.isEmpty = false := by
    cases eA with
    | nil => exact absurd rfl hneA
    | cons _ _ => rfl
  have hieB : eB.isEmpty = false := by
    cases eB with
    | nil => exact absurd rfl hneB
    | cons _ _ => rfl
  simp [querySegments, fetchTailSegments, runSegs, hvA, hkA, hbA, hieA,
        hvB, hkB, hbB, hieB, finalize, resetForQuery]

/-- Witness for C2 at the concrete pair of queries of the counterexample. -/
theorem spec_c2_witness :
    (runSegs ((querySegments envQueryA addrA).take 1 ++ querySegments envQueryB addrB
        ++ (querySegments envQueryA addrA).drop 1) initialState).results = [entryC] ∧
    (runSegs ((querySegments envQueryA addrA).take 1 ++ querySegments envQueryB addrB
        ++ (querySegments envQueryA addrA).drop 1) initialState).tokenDataObjects =
      ([entryC].filterMap (fun t => t.contractAddress)).map
        (fun c => settleMetadata (envQueryA.fetchMetadata c)) ∧
    (runSegs ((querySegments envQueryA addrA).take 1 ++ querySegments envQueryB addrB
        ++ (querySegments envQueryA addrA).drop 1) initialState).hasQueried = true :=
  spec_c2_amended envQueryA envQueryB addrA addrB addrA addrB
    [entryC] [entryD] initialState
    (by decide) (by decide) (by decide) (by decide)
    (by decide) (by decide) (by decide) (by decide)

/-- Claim C6: for a batch of balance entries that all carry contract
addresses, one rejected metadata fetch yields the placeholder at exactly
that position, the real metadata everywhere else in order, a metadata list
as long as the balance list, and a completed (not aborted) query. -/
theorem spec_c6_batch (env : Env) (s0 : AppState) (a : List Char)
    (entries : List TokenBalanceEntry)
    (cs1 cs2 : List (List Char)) (ck : List Char)
    (okM : List Char → TokenMetadata) (e : JsError)
    (hv : validateInput s0.userAddress = .addressKind a)
    (hk : validateApiKey env.apiKey = none)
    (hb : env.fetchBalances a = .ok entries)
    (hmap : entries.map (fun t => t.contractAddress) = (cs1 ++ ck :: cs2).map some)
    (hfail : env.fetchMetadata ck = .error e)
    (hok : ∀ c ∈ cs1 ++ cs2, env.fetchMetadata c = .ok (okM c)) :
    (getTokenBalance env s0).1.tokenDataObjects =
      cs1.map okM ++ placeholderMetadata :: cs2.map okM ∧
    (getTokenBalance env s0).1.tokenDataObjects.length = entries.length ∧
    (getTokenBalance env s0).1.hasQueried = true := by
  have hlen : entries.length = cs1.length + cs2.length + 1 := by
    have := congrArg List.length hmap
    simp at this
    omega
  have hne : entries ≠ [] := by
    intro hnil
    rw [hnil] at hlen
    simp at hlen
  obtain ⟨-, hmeta, hq, -, -, -, -⟩ :=
    getTokenBalance_success_state env s0 a entries hv hk hb hne
  have hfm := filterMap_of_map_some hmap
  have hform : (getTokenBalance env s0).1.tokenDataObjects =
      cs1.map okM ++ placeholderMetadata :: cs2.map okM := by
    rw [hmeta, hfm, List.map_append, List.map_cons]
    have h1 : cs1.map (fun c => settleMetadata (env.fetchMetadata c)) = cs1.map okM :=
      List.map_congr_left fun c hc => by
        rw [hok c (List.mem_append_left _ hc), settleMetadata]
    have h2 : cs2.map (fun c => settleMetadata (env.fetchMetadata c)) = cs2.map okM :=
      List.map_congr_left fun c hc => by
        rw [hok c (List.mem_append_right _ hc), settleMetadata]
    rw [h1, h2, hfail]
    rfl
  refine ⟨hform, ?_, hq⟩
  rw [hform]
  simp [hlen]
  omega

/-- Witness for C6: three entries, the middle metadata fetch rejects; the
stored metadata is real, placeholder, real, length three, query done. -/
theorem spec_c6_witness :
    (getTokenBalance envBatch queryStateA).1.tokenDataObjects =
      [contractC].map batchMeta ++ placeholderMetadata :: [contractE].map batchMeta ∧
    (getTokenBalance envBatch queryStateA).1.tokenDataObjects.length =
      ([entryC, entryD, entryE] : List TokenBalanceEntry).length ∧
    (getTokenBalance envBatch queryStateA).1.hasQueried = true :=
  spec_c6_batch envBatch queryStateA addrA [entryC, entryD, entryE]
    [contractC] [contractE] contractD batchMeta errD
    (by decide) (by decide) (by decide) (by decide) (by decide) (by decide)

/-- Claim C7: submitting the all-zero address classifies it as Invalid
with the zero-address reason (the source message is `Cannot use zero
address`), and the run issues no network call at all, whatever the
environment. -/
theorem spec_c7_zero_address (env : Env) (s0 : AppState)
    (h : s0.userAddress = "0x0000000000000000000000000000000000000000".data) :
    validateInput s0.userAddress = .invalid zeroMsg ∧
    (getTokenBalance env s0).1.errorType = "validation".data ∧
    (getTokenBalance env s0).1.walletError = zeroMsg ∧
    (getTokenBalance env s0).2 = [] := by
  have hv : validateInput ("0x0000000000000000000000000000000000000000".data) =
      .invalid zeroMsg := by decide
  rw [h]
  refine ⟨hv, ?_⟩
  simp [getTokenBalance, querySegments, queryCalls, runSegs, h, hv, resetForQuery]

/-- Witness for C7 in a concrete environment. -/
theorem spec_c7_witness :
    validateInput zeroState.userAddress = .invalid zeroMsg ∧
    (getTokenBalance envC1 zeroState).1.errorType = "validation".data ∧
    (getTokenBalance envC1 zeroState).1.walletError = zeroMsg ∧
    (getTokenBalance envC1 zeroState).2 = [] :=
  spec_c7_zero_address envC1 zeroState (by decide)

/-- Claim C8, counterexample: with an invalid API key and the ENS input
vitalik.eth whose resolution succeeds, the query does fail with the
credential error, but only after the wallet-provider resolution network
call has been issued — the claim that no network call occurs is false. -/
theorem spec_c8_counterexample :
    (getTokenBalance envBadKey ensState).2 = [.ensResolution ("vitalik.eth".data)] ∧
    (getTokenBalance envBadKey ensState).2 ≠ [] ∧
    (getTokenBalance envBadKey ensState).1.errorType = "api".data ∧
    (getTokenBalance envBadKey ensState).1.walletError = apiKeyErrMsg := by decide

/-- Claim C8, amended: with a missing or invalid credential no balance or
metadata fetch is ever issued; a query whose input validates as a raw
address fails with the credential error before any network call, and a
query whose ENS name resolves fails with the credential error after only
the resolution call. -/
theorem spec_c8_amended (env : Env) (s0 : AppState) (err : List Char)
    (hk : validateApiKey env.apiKey = some err) :
    ((getTokenBalance env s0).2.all fun c => match c with
        | .ensResolution _ => true
        | _ => false) = true ∧
    (∀ a, validateInput s0.userAddress = .addressKind a →
      (getTokenBalance env s0).1.errorType = "api".data ∧
      (getTokenBalance env s0).1.walletError = err ∧
      (getTokenBalance env s0).2 = []) ∧
    (∀ v addr, validateInput s0.userAddress = .ensKind v → env.hasProvider = true →
      env.ensResolve v = .ok addr →
      (getTokenBalance env s0).1.errorType = "api".data ∧
      (getTokenBalance env s0).1.walletError = err ∧
      (getTokenBalance env s0).2 = [.ensResolution v]) := by
  refine ⟨?_, ?_, ?_⟩
  · cases hval : validateInput s0.userAddress with
    | invalid e => simp [getTokenBalance, queryCalls, hval]
    | ensKind v =>
        cases hp : env.hasProvider with
        | false => simp [getTokenBalance, queryCalls, hval, hp]
        | true =>
            cases hr : env.ensResolve v with
            | error m => simp [getTokenBalance, queryCalls, hval, hp, hr]
            | ok addr => simp [getTokenBalance, queryCalls, hval, hp, hr, hk]
    | addressKind a => simp [getTokenBalance, queryCalls, hval, hk]
  · intro a ha
    simp [getTokenBalance, querySegments, queryCalls, runSegs, ha, hk, resetForQuery]
  · intro v addr hv hp hr
    simp [getTokenBalance, querySegments, queryCalls, runSegs, hv, hp, hr, hk,
          resetForQuery]

/-- Witness for C8 at the concrete bad-key environment of the
counterexample scenario, exercising the ENS clause. -/
theorem spec_c8_witness :
    (getTokenBalance envBadKey ensState).1.errorType = "api".data ∧
    (getTokenBalance envBadKey ensState).1.walletError = apiKeyErrMsg ∧
    (getTokenBalance envBadKey ensState).2 = [.ensResolution ("vitalik.eth".data)] :=
  (spec_c8_amended envBadKey ensState apiKeyErrMsg (by decide)).2.2
    ("vitalik.eth".data) addrA (by decide) (by decide) (by decide)

/-- Claim C9, counterexample: clearing the address field on a state that
displays a finished query leaves the stored results, metadata, completion
flag and resolved ENS address untouched, so the stale results remain
visible; only the error and detected-name fields are cleared. -/
theorem spec_c9_counterexample :
    (inputOnChange staleResultsState []).userAddress = [] ∧
    (inputOnChange staleResultsState []).results = [entryC] ∧
    (inputOnChange staleResultsState []).hasQueried = true ∧
    (inputOnChange staleResultsState []).tokenDataObjects = [metaC] ∧
    (inputOnChange staleResultsState []).resolvedENS = addrA := by decide

/-- Claim C9, amended: disconnecting the wallet clears all query-scoped
state in one transition, but clearing the address field resets only the
error state and the detected ENS name, leaving results, metadata, the
completion flag and the resolved address unchanged. -/
theorem spec_c9_amended : ∀ s : AppState,
    (disconnectWallet s).results = [] ∧
    (disconnectWallet s).tokenDataObjects = [] ∧
    (disconnectWallet s).hasQueried = false ∧
    (disconnectWallet s).walletError = [] ∧
    (disconnectWallet s).errorType = [] ∧
    (disconnectWallet s).ensName = [] ∧
    (disconnectWallet s).resolvedENS = [] ∧
    (disconnectWallet s).isLoading = false ∧
    (disconnectWallet s).userAddress = [] ∧
    (inputOnChange s []).userAddress = [] ∧
    (inputOnChange s []).walletError = [] ∧
    (inputOnChange s []).errorType = [] ∧
    (inputOnChange s []).ensName = [] ∧
    (inputOnChange s []).results = s.results ∧
    (inputOnChange s []).tokenDataObjects = s.tokenDataObjects ∧
    (inputOnChange s []).hasQueried = s.hasQueried ∧
    (inputOnChange s []).resolvedENS = s.resolvedENS := by
  intro s
  simp [disconnectWallet, inputOnChange]

end Erc20Indexer
